import Mathlib

/-!
Verification of the bwctl state-reconciliation engine.

Every definition below is a shallow embedding of a function of the bwctl
sources (`bwctl/commands/create.py`, `bwctl/commands/delete.py`,
`bwctl/session/state.py`, `bwctl/utils/states.py`): Python enum-as-string
values become inductive types, Python dicts keyed by name become
association lists, external tool invocations (Terraform/Ansible, the
"Provisioner"/"Configurator" collaborators) become oracle parameters
carrying the result the tool would return, and the flow of each imperative
procedure is reproduced branch by branch.
-/

namespace Bwctl

/-- `ObjectState` of `bwctl/utils/states.py`. -/
inductive ObjectState
  | deleting
  | configured
  | started
  | stopped
  | created
  | updated
  deriving DecidableEq, Repr, Fintype

/-- `ObjectStatus` of `bwctl/utils/states.py`. -/
inductive ObjectStatus
  | failed
  | success
  deriving DecidableEq, Repr, Fintype

/-- `ObjectKind` of `bwctl/utils/states.py`. -/
inductive ObjectKind
  | batch
  | fabric
  | nodebatch
  | orchestrator
  | processor
  | workload
  | vpc
  deriving DecidableEq, Repr, Fintype

/-- The `{config, start, stop}` action subset computed for one entity:
whether the entity is appended to `actions['config']`, `actions['start']`,
`actions['stop']` by `set_action_list`. -/
structure ActionSet where
  config : Bool
  start : Bool
  stop : Bool
  deriving DecidableEq, Repr

/-- `entity_role in [ObjectKind.WORKLOAD, ObjectKind.PROCESSOR]`, the guard
used throughout `set_action_list`. -/
def role_in_config_set (r : ObjectKind) : Bool :=
  r == .workload || r == .processor

/-- `set_action_list` of `bwctl/commands/create.py` (lines 500-568),
translated branch by branch.  `confDiffer` stands for the Python comparison
`batch_entity_conf != state_entity_conf` (declared configuration differs
from last-applied configuration); for orchestrators both arguments default
to `None`, so the comparison is `false`. -/
def set_action_list (currentState : ObjectState) (currentStatus : ObjectStatus)
    (targetState : ObjectState) (entityRole : ObjectKind)
    (confDiffer : Bool) : ActionSet :=
  if currentState == .created then
    if targetState == .configured then ⟨true, false, false⟩
    else if targetState == .started && role_in_config_set entityRole then ⟨true, true, false⟩
    else if targetState == .stopped && role_in_config_set entityRole then ⟨true, false, true⟩
    else ⟨false, false, false⟩
  else if currentState == .configured then
    if targetState == .configured && currentStatus == .failed then ⟨true, false, false⟩
    else if targetState == .configured && (role_in_config_set entityRole && confDiffer) then
      ⟨true, false, false⟩
    else if targetState == .started && (role_in_config_set entityRole && confDiffer) then
      ⟨true, true, false⟩
    else if targetState == .started && (role_in_config_set entityRole && currentStatus == .failed) then
      ⟨true, true, false⟩
    else if targetState == .started && role_in_config_set entityRole then ⟨false, true, false⟩
    else if targetState == .stopped && (role_in_config_set entityRole && confDiffer) then
      ⟨true, false, true⟩
    else if targetState == .stopped && (role_in_config_set entityRole && currentStatus == .failed) then
      ⟨true, false, true⟩
    else if targetState == .stopped && role_in_config_set entityRole then ⟨false, false, true⟩
    else ⟨false, false, false⟩
  else if currentState == .started then
    if targetState == .started && currentStatus == .failed then ⟨false, true, false⟩
    else if targetState == .started && (role_in_config_set entityRole && confDiffer) then
      ⟨true, true, false⟩
    else if targetState == .stopped && (role_in_config_set entityRole && confDiffer) then
      ⟨true, false, true⟩
    else if targetState == .stopped then ⟨false, false, true⟩
    else ⟨false, false, false⟩
  else if currentState == .stopped then
    if targetState == .stopped && currentStatus == .failed then ⟨false, false, true⟩
    else if targetState == .stopped && (role_in_config_set entityRole && confDiffer) then
      ⟨true, false, true⟩
    else if targetState == .started && (role_in_config_set entityRole && confDiffer) then
      ⟨true, true, false⟩
    else if targetState == .started then ⟨false, true, false⟩
    else ⟨false, false, false⟩
  else ⟨false, false, false⟩

/-- The section 4.2 decision table for role-bearing nodes, amended in the
three places the code forces: (1) a failed previous attempt at the requested
`started`/`stopped` state takes precedence over configuration drift, so
`(started, failed, started)` plans `{start}` and `(stopped, failed, stopped)`
plans `{stop}` regardless of the drift flag; (2) the drift-free rows
`started → stopped ↦ {stop}` and `stopped → started ↦ {start}` apply to both
statuses, not only to `success`; (3) any combination absent from the table
(targets `created`, `updated`, `deleting`, or a no-progress pair) plans no
action. -/
def plan_table (currentState : ObjectState) (currentStatus : ObjectStatus)
    (targetState : ObjectState) (confDiffer : Bool) : ActionSet :=
  match currentState, currentStatus, targetState, confDiffer with
  | .created, _, .configured, _ => ⟨true, false, false⟩
  | .created, _, .started, _ => ⟨true, true, false⟩
  | .created, _, .stopped, _ => ⟨true, false, true⟩
  | .configured, .failed, .configured, _ => ⟨true, false, false⟩
  | .configured, .success, .configured, true => ⟨true, false, false⟩
  | .configured, .success, .configured, false => ⟨false, false, false⟩
  | .configured, _, .started, true => ⟨true, true, false⟩
  | .configured, .failed, .started, false => ⟨true, true, false⟩
  | .configured, .success, .started, false => ⟨false, true, false⟩
  | .configured, _, .stopped, true => ⟨true, false, true⟩
  | .configured, .failed, .stopped, false => ⟨true, false, true⟩
  | .configured, .success, .stopped, false => ⟨false, false, true⟩
  | .started, .failed, .started, _ => ⟨false, true, false⟩
  | .started, .success, .started, true => ⟨true, true, false⟩
  | .started, .success, .stopped, true => ⟨true, false, true⟩
  | .started, .failed, .stopped, true => ⟨true, false, true⟩
  | .started, _, .stopped, false => ⟨false, false, true⟩
  | .stopped, .failed, .stopped, _ => ⟨false, false, true⟩
  | .stopped, .success, .stopped, true => ⟨true, false, true⟩
  | .stopped, .success, .started, true => ⟨true, true, false⟩
  | .stopped, .failed, .started, true => ⟨true, true, false⟩
  | .stopped, _, .started, false => ⟨false, true, false⟩
  | _, _, _, _ => ⟨false, false, false⟩

/-- Association-list lookup keyed by name; models Python dict access
(`d.get(k)` / `d[k]`), with keys unique as in a dict. -/
def lookupA {α : Type} : List (String × α) → String → Option α
  | [], _ => none
  | (k, v) :: rest, key => if k = key then some v else lookupA rest key

/-- Python `del d[k]` on a name-keyed dict, as key filtering (keys are
unique, so deleting the key and filtering it out coincide). -/
def eraseA {α : Type} (l : List (String × α)) (key : String) : List (String × α) :=
  l.filter (fun p => p.1 ≠ key)

/-- A member-node entry recorded under a node batch (`nb_node` of
`create.py` lines 375-381): `metadata.name`, `spec.vpc` and the template's
declared target `state`. -/
structure BatchMember where
  name : String
  vpc : String
  declaredState : ObjectState
  deriving DecidableEq, Repr

/-- The batch registry entry created at `create.py` lines 358-361: a dict
`{nodebatch_node_type: {}}` with exactly one member-kind key, whose own
`state` field is set by `set_object_state(..., ObjectState.CREATED)`;
member nodes are then added under the kind key. -/
structure NodeBatchObj where
  state : ObjectState
  hasProcessorKey : Bool
  members : List BatchMember
  deriving DecidableEq, Repr

/-- `nodebatch_curr_type` of `nodebatch_check_success`
(`bwctl/session/state.py` lines 1203-1205): `PROCESSOR` when the
`'processor'` key is present in the batch object, `WORKLOAD` otherwise. -/
def nodebatch_curr_type (b : NodeBatchObj) : ObjectKind :=
  if b.hasProcessorKey then .processor else .workload

/-- The per-batch condition of `nodebatch_check_success`
(`bwctl/session/state.py` lines 1206-1207):
`check_object_state(nodebatch_obj, target_obj_state)` on the batch
object's own recorded state, together with the member-kind comparison.
A name absent from the batch map (`get_nodebatch` returning `None`) makes
`check_object_state` false. -/
def nodebatch_finished (batches : List (String × NodeBatchObj)) (name : String)
    (targetObjState : ObjectState) (nodebatchType : ObjectKind) : Bool :=
  match lookupA batches name with
  | none => false
  | some b => b.state == targetObjState && nodebatch_curr_type b == nodebatchType

/-- Loop body of `nodebatch_check_success`: iterate over a copy of the
target list, deleting each finished batch from the batch map and removing
its name from the (mutated) target list. -/
def nodebatch_check_go (batches : List (String × NodeBatchObj))
    (remTargets : List String) (iter : List String) (targetObjState : ObjectState)
    (nodebatchType : ObjectKind) : List (String × NodeBatchObj) × List String :=
  match iter with
  | [] => (batches, remTargets)
  | n :: rest =>
    if nodebatch_finished batches n targetObjState nodebatchType then
      nodebatch_check_go (eraseA batches n) (remTargets.erase n) rest
        targetObjState nodebatchType
    else
      nodebatch_check_go batches remTargets rest targetObjState nodebatchType

/-- `nodebatch_check_success` of `bwctl/session/state.py` (lines 1197-1213):
returns the batch map and the target list after deleting every batch whose
own recorded state equals `targetObjState` and whose member kind equals
`nodebatchType`. -/
def nodebatch_check_success (batches : List (String × NodeBatchObj))
    (nodebatchTargets : List String) (targetObjState : ObjectState)
    (nodebatchType : ObjectKind) : List (String × NodeBatchObj) × List String :=
  nodebatch_check_go batches nodebatchTargets nodebatchTargets targetObjState nodebatchType

/-- Fabric-side record of a node's current `(state, status)`. -/
structure NodeCond where
  st : ObjectState
  status : ObjectStatus
  deriving DecidableEq, Repr

/-- The deletion condition claimed by spec section 4.5, stated from the
spec's words for comparison with `nodebatch_finished`: every member node
generated by the batch has reached the batch's declared target state with
status `success`, read against the fabric's node records. -/
def members_reached_target (nodes : List (String × NodeCond)) (b : NodeBatchObj) : Bool :=
  b.members.all fun m =>
    match lookupA nodes m.name with
    | some c => c.st == m.declaredState && c.status == .success
    | none => false

/-- A state object as seen by the index allocators: its recorded `index`,
`state` and `status`. -/
structure ScopedObj where
  index : Nat
  st : ObjectState
  status : ObjectStatus
  deriving DecidableEq, Repr

/-- Python `max(item[1]['index'] for item in obj_list)` over a scope
(`0` on an empty scope, where the code never evaluates it). -/
def max_scope_index (objList : List ScopedObj) : Nat :=
  (objList.map (fun o => o.index)).foldl Nat.max 0

/-- Node index allocation of `create_processor`
(`bwctl/commands/create.py` lines 897-904; `create_workload` and
`create_orchestrator` are verbatim analogues): `obj_index = 1`; if the
scope (this role's nodes filtered by VPC, via the Python substring test
`vpc in x[1]['vpc']`) is nonempty,
`obj_index = max(indices)`, incremented unless the last-inserted object of
the scope is in `(created, failed)`
(`check_object_state_status(obj_list[-1][1], CREATED, FAILED)`). -/
def node_alloc_index (objList : List ScopedObj) : Nat :=
  match objList.getLast? with
  | none => 1
  | some lastObj =>
    if lastObj.st == .created && lastObj.status == .failed then max_scope_index objList
    else max_scope_index objList + 1

/-- VPC index allocation of `create_vpc` (`bwctl/commands/create.py` lines
1040-1044): `vpc_index = 1`; if the scope (the fabric's VPCs filtered by
cloud) is nonempty, `vpc_index = max(indices) + 1`, with no special case
for a failed previous attempt. -/
def vpc_alloc_index (vpcList : List ScopedObj) : Nat :=
  match vpcList with
  | [] => 1
  | _ => max_scope_index vpcList + 1

/-- The characters before the first `'-'` (the whole list when no `'-'`
occurs), i.e. the first field of a `'-'`-split. -/
def chars_before_dash : List Char → List Char
  | [] => []
  | c :: rest => if c = '-' then [] else c :: chars_before_dash rest

/-- `vpc.split("-")[0]`: the VPC short token used in node names (the first
field of the split is exactly the prefix up to the first `'-'`). -/
def vpc_short (vpc : String) : String := ⟨chars_before_dash vpc.data⟩

/-- Python `'{:02d}'.format(n)`: decimal, left-padded with `0` to width 2. -/
def format02 (n : Nat) : String := if n < 10 then "0" ++ toString n else toString n

/-- Node name assembly of `create_processor` (`bwctl/commands/create.py`
lines 905-917; orchestrator and workload creation are verbatim analogues
with `obj_char` `'c'` / `'w'`):
`'{0!s}-{1!s}{2:02d}-{3!s}'.format(vpc.split("-")[0], obj_char, obj_index, fabric)`. -/
def node_obj_name (vpc objChar : String) (objIndex : Nat) (fabric : String) : String :=
  vpc_short vpc ++ "-" ++ objChar ++ format02 objIndex ++ "-" ++ fabric

/-- Node name assembly of node-batch template expansion
(`bwctl/commands/create.py` lines 371-373):
`nodebatch_vpc.split("-")[0] + '-' + char_type + '0' + str(nodebatch_node_index + i) + '-' + fabric`. -/
def nodebatch_node_name (vpc charType : String) (idx : Nat) (fabric : String) : String :=
  vpc_short vpc ++ "-" ++ charType ++ "0" ++ toString idx ++ "-" ++ fabric

/-- Whether the first list is an initial segment of the second
(helper for the Python substring test). -/
def leads_with : List Char → List Char → Bool
  | [], _ => true
  | _ :: _, [] => false
  | a :: as, b :: bs => a == b && leads_with as bs

/-- Whether `needle` occurs contiguously in the character list. -/
def py_in_chars (needle : List Char) : List Char → Bool
  | [] => leads_with needle []
  | c :: rest => leads_with needle (c :: rest) || py_in_chars needle rest

/-- Python `needle in hay` on strings: contiguous-substring test. -/
def py_in_str (needle hay : String) : Bool := py_in_chars needle.data hay.data

/-- Oracle outcomes of the external calls made while `create_batch`
processes one fabric (`bwctl/commands/create.py` lines 90-754): whether
the fabric itself is declared in the batch and its create/configure zone
succeeded (lines 91-171), whether VPCs are to be created and `vpc_create`
succeeded with its exit code (lines 215-221), whether nodes are to be
created, the credentials lookup, `obj_create_check` and `obj_create`
succeeded (lines 462-477), and whether the Ansible zone (orchestrator /
processor / workload configure, start, stop) raised no stop flag
(lines 653-754). -/
structure FabricOutcome where
  fabricInBatch : Bool
  fabricZoneOk : Bool
  vpcPresent : Bool
  vpcCreateOk : Bool
  vpcExitCode : Nat
  nodesPresent : Bool
  credOk : Bool
  nodeCheckOk : Bool
  nodeCreateOk : Bool
  ansibleOk : Bool
  deriving DecidableEq, Repr

/-- Result of a `create_batch` run: either the loop over fabrics finishes
with the aggregated `batch_result_success` flag, or a `sys.exit` aborts it;
`processed` records the fabrics whose processing was begun. -/
inductive BatchRunResult
  | finished (success : Bool) (processed : List String)
  | exited (code : Nat) (processed : List String)
  deriving DecidableEq, Repr

/-- The fabric loop of `create_batch` (`bwctl/commands/create.py` lines
89-754), branch by branch: a fabric-zone failure sets
`batch_result_success = False` and `continue`s to the next fabric; a
`vpc_create` failure calls `sys.exit(res[1])`; a credentials failure before
node creation calls `sys.exit(1)`; an `obj_create_check` or `obj_create`
failure sets the flag and `continue`s; Ansible-zone stop flags only clear
the success flag at the end of the fabric's iteration. -/
def create_batch_run_go : List (String × FabricOutcome) → Bool → List String → BatchRunResult
  | [], flag, processed => .finished flag processed
  | (name, o) :: rest, flag, processed =>
    if o.fabricInBatch && !o.fabricZoneOk then
      create_batch_run_go rest false (processed ++ [name])
    else if o.vpcPresent && !o.vpcCreateOk then
      .exited o.vpcExitCode (processed ++ [name])
    else if o.nodesPresent && !o.credOk then
      .exited 1 (processed ++ [name])
    else if o.nodesPresent && !o.nodeCheckOk then
      create_batch_run_go rest false (processed ++ [name])
    else if o.nodesPresent && !o.nodeCreateOk then
      create_batch_run_go rest false (processed ++ [name])
    else
      create_batch_run_go rest (flag && o.ansibleOk) (processed ++ [name])

/-- `create_batch` fabric processing, starting with
`batch_result_success = True` (`bwctl/commands/create.py` line 89). -/
def create_batch_run (fabrics : List (String × FabricOutcome)) : BatchRunResult :=
  create_batch_run_go fabrics true []

/-- Whether one fabric's processing leaves the batch success flag intact
(assuming no aborting branch was taken). -/
def fabric_ok (o : FabricOutcome) : Bool :=
  !(o.fabricInBatch && !o.fabricZoneOk) && !(o.nodesPresent && !o.nodeCheckOk) &&
    !(o.nodesPresent && !o.nodeCreateOk) && o.ansibleOk

/-- Orchestrator type: the closed key set of the `orchestrator_in_batch`
flag dict (`bwctl/commands/create.py` line 232). -/
inductive OrchType
  | controller
  | telemetry
  | events
  deriving DecidableEq, Repr

/-- An orchestrator state object, with the fields the batch node loop
consults: `type`, `state`, `status`. -/
structure OrchObj where
  tp : OrchType
  st : ObjectState
  status : ObjectStatus
  deriving DecidableEq, Repr

/-- An orchestrator entry of a batch specification: `metadata.name` and
`spec.type`; `parentsOk` abbreviates the fabric/VPC existence pre-checks of
lines 262-269 of `create.py`, which drop the entry with a warning when a
parent is missing. -/
structure OrchEntry where
  name : String
  tp : OrchType
  parentsOk : Bool
  deriving DecidableEq, Repr

/-- Existing-orchestrator check of `create.py` lines 239-241: some
orchestrator of the same type, with status `SUCCESS` and a different name,
already exists in the fabric.  The Python type test is the substring test
`orch_type in x[1]['type']`, which on the closed type set
{controller, telemetry, events} coincides with equality (no value is a
substring of another). -/
def orch_exists_success_other (reg : List (String × OrchObj)) (e : OrchEntry) : Bool :=
  reg.any fun p => p.2.tp == e.tp && p.2.status == .success && p.1 != e.name

/-- In-batch duplicate check of `create.py` lines 253-255: another batch
entry of the same type with a different name. -/
def orch_dup_in_batch (allEntries : List OrchEntry) (e : OrchEntry) : Bool :=
  allEntries.any fun i => i.tp == e.tp && i.name != e.name

/-- Node-exists check of `create.py` lines 271-281: a fabric node of the
same name is re-created only when in `(created, failed)`; otherwise the
entry is dropped ("already exist. Skipping"). -/
def orch_node_exists_keep (reg : List (String × OrchObj)) (e : OrchEntry) : Bool :=
  match lookupA reg e.name with
  | none => true
  | some o => o.st == .created && o.status == .failed

/-- One iteration of the orchestrator branch of the batch node loop
(`create.py` lines 236-314): whether the entry stays in `temp_nodes_list`,
and the updated `orchestrator_in_batch` flag set.  The registry is passed
fixed: nodes added to the working state inside the loop carry an empty or
`failed` status and never satisfy the `SUCCESS` filter of the
existing-orchestrator check. -/
def orch_step (reg : List (String × OrchObj)) (allEntries : List OrchEntry)
    (flagged : List OrchType) (e : OrchEntry) : Bool × List OrchType :=
  if orch_exists_success_other reg e then (false, flagged)
  else if e.tp ∈ flagged then (false, flagged)
  else
    (if !e.parentsOk then false else orch_node_exists_keep reg e,
      if orch_dup_in_batch allEntries e then e.tp :: flagged else flagged)

/-- The orchestrator branch of the batch node loop over a list of entries,
accumulating the `orchestrator_in_batch` flags. -/
def orch_process_aux (reg : List (String × OrchObj)) (allEntries : List OrchEntry) :
    List OrchEntry → List OrchType → List OrchEntry
  | [], _ => []
  | e :: rest, flagged =>
    let s := orch_step reg allEntries flagged e
    if s.1 then e :: orch_process_aux reg allEntries rest s.2
    else orch_process_aux reg allEntries rest s.2

/-- The orchestrator entries of one fabric's batch that are retained for
creation (`temp_nodes_list` after the loop of `create.py` lines 233-314). -/
def orch_process (reg : List (String × OrchObj)) (entries : List OrchEntry) : List OrchEntry :=
  orch_process_aux reg entries entries []

/-- `State.normalise_string` (`bwctl/session/state.py` lines 289-293):
`str(input_string).lower()`, character-wise lowering. -/
def normalise_string (s : String) : String := ⟨s.data.map Char.toLower⟩

/-- The slice of the persisted state consulted by `delete_processor`:
the current fabric's processor and workload maps, each node recording its
`vpc`. -/
structure FabricNodes where
  processors : List (String × String)
  workloads : List (String × String)
  deriving DecidableEq, Repr

/-- Outcome of a `delete_processor` invocation: a validation `sys.exit(1)`
before any external call, a `sys.exit` after a failed external call, a
dry run, or a completed deletion. -/
inductive DeleteOutcome
  | validationExit
  | externalExit (code : Nat)
  | dryRun
  | deleted
  deriving DecidableEq, Repr

/-- Oracle results of the external calls `delete_processor` can make. -/
structure DeleteExtOracle where
  credOk : Bool
  planOk : Bool
  applyOk : Bool
  applyCode : Nat
  deriving DecidableEq, Repr

/-- `delete_processor` of `bwctl/commands/delete.py` (lines 510-574):
fabric-set check, name normalisation (`str.lower`), existence check, the
last-processor-with-workloads guard (lines 530-539), dry run, credentials,
deletion on a working copy, Terraform plan/apply; the persisted state is
replaced only on full success (`sys.exit` fires before the dump on every
failure).  Returns the outcome, the persisted state after the command, and
the external calls made in order. -/
def delete_processor (fabricSet : Bool) (st : FabricNodes) (processorName : String)
    (dryRun : Bool) (ext : DeleteExtOracle) :
    DeleteOutcome × FabricNodes × List String :=
  if !fabricSet then (.validationExit, st, [])
  else
    match lookupA st.processors (normalise_string processorName) with
    | none => (.validationExit, st, [])
    | some objVpc =>
      let processors := (st.processors.filter fun p => objVpc == p.2).map Prod.fst
      let workloads := (st.workloads.filter fun p => objVpc == p.2).map Prod.fst
      if processors.length < 2 && !workloads.isEmpty then (.validationExit, st, [])
      else if dryRun then (.dryRun, st, [])
      else if !ext.credOk then (.externalExit 1, st, ["credentials"])
      else if !ext.planOk then
        (.externalExit 1, st, ["credentials", "terraform-plan"])
      else if !ext.applyOk then
        (.externalExit ext.applyCode, st, ["credentials", "terraform-plan", "terraform-apply"])
      else
        (.deleted, { st with processors := eraseA st.processors (normalise_string processorName) },
          ["credentials", "terraform-plan", "terraform-apply"])

/-- A node-batch specification entry (`create.py` lines 318-331, 356-384):
batch name, owning fabric, template VPC, instance count, member kind and
the template's declared target state. -/
structure NodeBatchSpec where
  name : String
  fabric : String
  vpc : String
  instanceCount : Nat
  isProcessor : Bool
  targetState : ObjectState
  deriving DecidableEq, Repr

/-- The state slice read and written by node-batch generation: the batch
map and the fabric's nodes of the member kind (name, VPC, index). -/
structure GenState where
  batches : List (String × NodeBatchObj)
  fabricNodes : List (String × (String × Nat))
  deriving DecidableEq, Repr

/-- Node-batch generation of `create_batch` (`create.py` lines 354-384):
when no batch of this name is recorded, a batch object in state `created`
is added and `instanceCount` member nodes are generated with sequential
indices starting at `max(indices of this kind's nodes whose VPC matches) + 1`
(1 on an empty scope); when a batch of this name is already recorded, it is
resumed and nothing is generated. -/
def create_nodebatch_gen (st : GenState) (spec : NodeBatchSpec) : GenState :=
  if (lookupA st.batches spec.name).isSome then st
  else
    let charType := if spec.isProcessor then "p" else "w"
    let scopeNodes := st.fabricNodes.filter fun p => py_in_str spec.vpc p.2.1
    let startIdx :=
      if scopeNodes.isEmpty then 1 else (scopeNodes.map fun p => p.2.2).foldl Nat.max 0 + 1
    let members := (List.range spec.instanceCount).map fun i =>
      ({ name := nodebatch_node_name spec.vpc charType (startIdx + i) spec.fabric,
         vpc := spec.vpc, declaredState := spec.targetState } : BatchMember)
    { st with
      batches := st.batches ++ [(spec.name, ⟨.created, spec.isProcessor, members⟩)] }

/-- Whether a role value contains `'manager'` (`'manager' in x[1]['role']`
of `state.py` line 733); the clean orchestrator's role `{}` (modeled
`none`) contains nothing. -/
def role_is_manager (role : Option String) : Bool :=
  match role with
  | none => false
  | some r => py_in_str "manager" r

/-- An orchestrator as stored in the fabric state, with the fields the
swarm-manager logic consults: `type` and `role`. -/
structure OrchNode where
  tp : String
  role : Option String
  deriving DecidableEq, Repr

/-- Batch orchestrator creation (`create.py` lines 304-314): the new state
object copies `spec.role` and `spec.type` verbatim from the batch entry
(`new_node['role'] = node_obj['spec']['role']`). -/
def add_batch_orchestrator (orchs : List (String × OrchNode)) (name tp role : String) :
    List (String × OrchNode) :=
  orchs ++ [(name, ⟨tp, some role⟩)]

/-- Number of fabric orchestrators whose role contains `'manager'`. -/
def manager_count (orchs : List (String × OrchNode)) : Nat :=
  orchs.countP fun p => role_is_manager p.2.role

/-- Swarm-manager assignment of `orchestrator_configure`
(`bwctl/session/state.py` lines 732-754): when no orchestrator of the
fabric has a manager role, every orchestrator in the configured list
becomes `manager` if its type is `'controller'` and `'worker'` otherwise;
when a manager already exists, roles are unchanged. -/
def assign_swarm_roles (orchs : List (String × OrchNode)) (configList : List String) :
    List (String × OrchNode) :=
  if orchs.any (fun p => role_is_manager p.2.role) then orchs
  else
    orchs.map fun p =>
      if p.1 ∈ configList then
        (p.1, { p.2 with
          role := some (if p.2.tp == "controller" then "manager" else "worker") })
      else p

/-- A fabric object's recorded `state`/`status`; a clean fabric carries
`{}` in both fields (modeled `none`), which every enum comparison treats as
no valid value. -/
structure FabCond where
  st : Option ObjectState
  status : Option ObjectStatus
  deriving DecidableEq, Repr

/-- `get_current_fabric` of `bwctl/session/state.py` (lines 154-163): the
configured current-fabric name is returned only when that fabric exists in
the state and is `(configured, success)` or in state `deleting`; in every
other case - a nonexistent name, a fabric still `created`, or a failed
configuration attempt - the Python function falls through without a
`return`, yielding `None`. -/
def get_current_fabric (fabrics : List (String × FabCond)) (currentFabric : String) :
    Option String :=
  match lookupA fabrics currentFabric with
  | none => none
  | some f =>
    if (f.st == some ObjectState.configured && f.status == some ObjectStatus.success) ||
        f.st == some ObjectState.deleting then
      some currentFabric
    else none

end Bwctl

namespace Bwctl

/-- C1 (counterexample): for a Workload in `(started, failed)` with target
`started` and a changed configuration, the claim (spec section 4.2 scenario C)
demands the plan `{config, start}`, but `set_action_list` takes the
failed-retry branch first and returns `{start}` only. -/
theorem C1_counterexample :
    ¬ (set_action_list .started .failed .started .workload true
        = ⟨true, true, false⟩) := by decide

/-- C1 (amended): for every role-bearing node (Processor or Workload), every
current state in `{created, configured, started, stopped}`, every status,
every target state and every drift flag, `set_action_list` returns exactly
the action set of the section 4.2 table amended so that the failed-retry
rows take precedence over configuration drift and the drift-free
`started → stopped` / `stopped → started` rows apply to both statuses. -/
theorem C1_set_action_list_matches_plan_table :
    ∀ (cs : ObjectState) (st : ObjectStatus) (ts : ObjectState)
      (role : ObjectKind) (cd : Bool),
      (cs = .created ∨ cs = .configured ∨ cs = .started ∨ cs = .stopped) →
      (role = .processor ∨ role = .workload) →
      set_action_list cs st ts role cd = plan_table cs st ts cd := by decide

/-- C1 (witness): the amended table applied at the concrete scenario-C input,
a Workload in `(started, failed)` with target `started` and changed config. -/
theorem C1_set_action_list_matches_plan_table_witness :
    (ObjectState.started = .created ∨ ObjectState.started = .configured ∨
      ObjectState.started = .started ∨ ObjectState.started = .stopped) ∧
    (ObjectKind.workload = .processor ∨ ObjectKind.workload = .workload) ∧
    set_action_list .started .failed .started .workload true
      = plan_table .started .failed .started true :=
  ⟨by decide, by decide,
    C1_set_action_list_matches_plan_table .started .failed .started .workload true
      (by decide) (by decide)⟩

end Bwctl

namespace Bwctl

/-- Looking up the deleted key after `eraseA` gives `none`. -/
theorem lookupA_eraseA_self {α : Type} (l : List (String × α)) (k : String) :
    lookupA (eraseA l k) k = none := by
  induction l with
  | nil => rfl
  | cons p rest ih =>
    by_cases h : p.1 = k
    · simpa [eraseA, h] using ih
    · simpa [eraseA, lookupA, h] using ih

/-- `eraseA` does not change lookups of other keys. -/
theorem lookupA_eraseA_ne {α : Type} (l : List (String × α)) (k k' : String)
    (h : k' ≠ k) : lookupA (eraseA l k) k' = lookupA l k' := by
  induction l with
  | nil => rfl
  | cons p rest ih =>
    simp only [eraseA, ne_eq, decide_not] at ih
    by_cases hp : p.1 = k
    · simp [eraseA, hp, lookupA, Ne.symm h, ih]
    · simp [eraseA, hp, lookupA, ih]

/-- A key absent from the batch map stays absent through the check loop. -/
theorem nodebatch_check_go_none (iter : List String)
    (batches : List (String × NodeBatchObj)) (remTargets : List String)
    (ts : ObjectState) (kind : ObjectKind) (name : String)
    (h : lookupA batches name = none) :
    lookupA (nodebatch_check_go batches remTargets iter ts kind).1 name = none := by
  induction iter generalizing batches remTargets with
  | nil => simpa [nodebatch_check_go] using h
  | cons n rest ih =>
    by_cases hc : nodebatch_finished batches n ts kind
    · have herase : lookupA (eraseA batches n) name = none := by
        by_cases hn : name = n
        · simpa [hn] using lookupA_eraseA_self batches n
        · rw [lookupA_eraseA_ne batches n name hn]
          exact h
      simpa [nodebatch_check_go, hc] using ih _ _ herase
    · simpa [nodebatch_check_go, hc] using ih _ _ h

/-- Core form of the C2 deletion characterization, by induction over the
iteration list. -/
theorem nodebatch_check_go_delete_iff (iter : List String)
    (batches : List (String × NodeBatchObj)) (remTargets : List String)
    (ts : ObjectState) (kind : ObjectKind) (name : String) (b : NodeBatchObj)
    (h : lookupA batches name = some b) :
    (lookupA (nodebatch_check_go batches remTargets iter ts kind).1 name = none ↔
      (name ∈ iter ∧ b.state = ts ∧ nodebatch_curr_type b = kind)) := by
  induction iter generalizing batches remTargets with
  | nil =>
    simp [nodebatch_check_go, h]
  | cons n rest ih =>
    by_cases hn : name = n
    · subst hn
      by_cases hc : nodebatch_finished batches name ts kind
      · have hcond : b.state = ts ∧ nodebatch_curr_type b = kind := by
          have hb := hc
          unfold nodebatch_finished at hb
          rw [h] at hb
          simpa [Bool.and_eq_true, beq_iff_eq] using hb
        have hgone :
            lookupA (nodebatch_check_go (eraseA batches name)
              (remTargets.erase name) rest ts kind).1 name = none :=
          nodebatch_check_go_none rest _ _ ts kind name
            (lookupA_eraseA_self batches name)
        simp [nodebatch_check_go, hc, hgone, hcond]
      · have hcond : ¬ (b.state = ts ∧ nodebatch_curr_type b = kind) := by
          intro hk
          apply hc
          unfold nodebatch_finished
          rw [h]
          simp [hk.1, hk.2]
        rw [nodebatch_check_go, if_neg hc]
        rw [ih _ _ h]
        simp [hcond]
    · by_cases hc : nodebatch_finished batches n ts kind
      · have hkeep : lookupA (eraseA batches n) name = some b := by
          rw [lookupA_eraseA_ne batches n name hn]
          exact h
        rw [nodebatch_check_go, if_pos hc]
        rw [ih _ _ hkeep]
        simp [hn]
      · rw [nodebatch_check_go, if_neg hc]
        rw [ih _ _ h]
        simp [hn]

/-- C2 (counterexample): a workload node batch whose single member is still
in `(created, success)` - and thus has not reached the batch's declared
target `started` - is nevertheless deleted from the batch map by the
post-create `nodebatch_check_success(..., CREATED, WORKLOAD)` call, because
the check reads the batch object's own recorded state (`created`), never
the member nodes' states or statuses. -/
theorem C2_counterexample :
    lookupA (nodebatch_check_success
        [("b1", ⟨ObjectState.created, false, [⟨"n1", "v1", ObjectState.started⟩]⟩)]
        ["b1"] .created .workload).1 "b1" = none ∧
    members_reached_target [("n1", ⟨ObjectState.created, ObjectStatus.success⟩)]
      ⟨ObjectState.created, false, [⟨"n1", "v1", ObjectState.started⟩]⟩ = false := by
  constructor
  · rfl
  · rfl

/-- C2 (amended): a batch entry is deleted by `nodebatch_check_success`
exactly when its name is in the target list, the batch object's own
recorded state equals the stage state passed to the check, and the batch's
member kind equals the kind passed - member node states and statuses are
not consulted.  (Since the recorded state is always `created`, a batch is
deleted by the first post-create check of its kind, regardless of whether
its member nodes reached the declared target.) -/
theorem C2_nodebatch_delete_iff (batches : List (String × NodeBatchObj))
    (targets : List String) (ts : ObjectState) (kind : ObjectKind)
    (name : String) (b : NodeBatchObj)
    (h : lookupA batches name = some b) :
    (lookupA (nodebatch_check_success batches targets ts kind).1 name = none ↔
      (name ∈ targets ∧ b.state = ts ∧ nodebatch_curr_type b = kind)) :=
  nodebatch_check_go_delete_iff targets batches targets ts kind name b h

/-- C2 (witness): the deletion characterization applied to a concrete
one-batch map. -/
theorem C2_nodebatch_delete_iff_witness :
    lookupA [("b1", (⟨ObjectState.created, false, []⟩ : NodeBatchObj))] "b1"
      = some ⟨ObjectState.created, false, []⟩ ∧
    (lookupA (nodebatch_check_success
        [("b1", ⟨ObjectState.created, false, []⟩)] ["b1"] .created .workload).1 "b1"
        = none ↔
      ("b1" ∈ ["b1"] ∧ ObjectState.created = ObjectState.created ∧
        nodebatch_curr_type ⟨ObjectState.created, false, []⟩ = ObjectKind.workload)) :=
  ⟨by rfl,
    C2_nodebatch_delete_iff [("b1", ⟨ObjectState.created, false, []⟩)] ["b1"]
      .created .workload "b1" ⟨ObjectState.created, false, []⟩ (by rfl)⟩

end Bwctl

namespace Bwctl

/-- `foldl Nat.max` bounds the seed and every member of the list. -/
theorem le_foldl_max (l : List Nat) (a : Nat) :
    a ≤ l.foldl Nat.max a ∧ ∀ x ∈ l, x ≤ l.foldl Nat.max a := by
  induction l generalizing a with
  | nil => exact ⟨Nat.le_refl a, by simp⟩
  | cons y ys ih =>
    constructor
    · exact Nat.le_trans (Nat.le_max_left a y) (ih (Nat.max a y)).1
    · intro x hx
      rcases List.mem_cons.mp hx with h | h
      · subst h
        exact Nat.le_trans (Nat.le_max_right a x) (ih (Nat.max a x)).1
      · exact (ih (Nat.max a y)).2 x h

/-- C3 (counterexample): a VPC scope whose only (hence most recent) object
is in `(created, failed)` with index 1: the claim demands the allocator
return that same index 1, but `create_vpc` always computes `max + 1 = 2`,
with no failed-retry exception. -/
theorem C3_counterexample :
    vpc_alloc_index [(⟨1, .created, .failed⟩ : ScopedObj)] ≠ 1 ∧
    vpc_alloc_index [(⟨1, .created, .failed⟩ : ScopedObj)] = 2 := by
  exact ⟨by decide, by decide⟩

/-- C3 (amended): node allocation (`create_processor` and analogues)
returns 1 on an empty scope, `max(indices)` when the last-inserted scope
object is in `(created, failed)` (the failed attempt's own index whenever
that attempt holds the maximum), and `max(indices) + 1` - a bound strictly
above every existing index - otherwise; VPC allocation (`create_vpc`)
always returns `max(indices) + 1` on a nonempty scope (1 when empty), with
no failed-retry exception. -/
theorem C3_alloc_index_amended (l : List ScopedObj) :
    (l = [] → node_alloc_index l = 1 ∧ vpc_alloc_index l = 1) ∧
    (∀ lastObj, l.getLast? = some lastObj →
      vpc_alloc_index l = max_scope_index l + 1 ∧
      ((lastObj.st = .created ∧ lastObj.status = .failed) →
        node_alloc_index l = max_scope_index l) ∧
      (¬ (lastObj.st = .created ∧ lastObj.status = .failed) →
        node_alloc_index l = max_scope_index l + 1) ∧
      (∀ o ∈ l, o.index ≤ max_scope_index l)) := by
  constructor
  · rintro rfl
    exact ⟨rfl, rfl⟩
  · intro lastObj hlast
    have hne : l ≠ [] := by
      intro h
      rw [h] at hlast
      exact Option.noConfusion hlast
    refine ⟨?_, ?_, ?_, ?_⟩
    · cases l with
      | nil => exact absurd rfl hne
      | cons x xs => rfl
    · intro hcf
      unfold node_alloc_index
      rw [hlast]
      simp [hcf.1, hcf.2]
    · intro hcf
      have hb : ¬ ((lastObj.st == ObjectState.created &&
          lastObj.status == ObjectStatus.failed) = true) := by
        simpa [Bool.and_eq_true, beq_iff_eq] using hcf
      unfold node_alloc_index
      rw [hlast]
      simp [hb]
    · intro o ho
      have hm : o.index ∈ l.map (fun x => x.index) := List.mem_map_of_mem _ ho
      exact (le_foldl_max (l.map fun x => x.index) 0).2 o.index hm

/-- C3 (witness): the amended allocator rule applied to the one-object
`(created, failed)` scope: the node allocator returns the maximum (retry),
the VPC allocator does not. -/
theorem C3_alloc_index_amended_witness :
    node_alloc_index [(⟨1, .created, .failed⟩ : ScopedObj)]
      = max_scope_index [(⟨1, .created, .failed⟩ : ScopedObj)] :=
  (((C3_alloc_index_amended [⟨1, .created, .failed⟩]).2 ⟨1, .created, .failed⟩
      (by decide)).2.1) (by decide)

/-- `String.append` is associative (via the underlying character lists). -/
theorem string_append_assoc (a b c : String) : a ++ b ++ c = a ++ (b ++ c) := by
  apply String.ext
  simp [String.data_append, List.append_assoc]

/-- C4 (counterexample): node-batch expansion builds the name by
concatenating a literal `'0'` with the decimal index, so from index 10 on
the index field has three digits (`aws1-p010-demo`), not the
`{index:02d}` two-digit form (`aws1-p10-demo`) the claim asserts for every
batch-generated name. -/
theorem C4_counterexample :
    nodebatch_node_name "aws1-vpc-demo" "p" 10 "demo" = "aws1-p010-demo" ∧
    node_obj_name "aws1-vpc-demo" "p" 10 "demo" = "aws1-p10-demo" ∧
    nodebatch_node_name "aws1-vpc-demo" "p" 10 "demo"
      ≠ node_obj_name "aws1-vpc-demo" "p" 10 "demo" := by
  exact ⟨by decide, by decide, by decide⟩

/-- C4 (amended): direct node creation names follow
`{vpc-short}-{roleChar}{index:02d}-{fabric}`; node-batch expansion instead
concatenates a literal `'0'` with the decimal index, which coincides with
the `02d` form exactly for indices 0-9 and yields three or more digits from
index 10 on. -/
theorem C4_node_names (vpc c fabric : String) (idx : Nat) :
    node_obj_name vpc c idx fabric
      = vpc_short vpc ++ "-" ++ c ++ format02 idx ++ "-" ++ fabric ∧
    (idx < 10 → nodebatch_node_name vpc c idx fabric = node_obj_name vpc c idx fabric) ∧
    nodebatch_node_name vpc c idx fabric
      = vpc_short vpc ++ "-" ++ c ++ ("0" ++ toString idx) ++ "-" ++ fabric := by
  refine ⟨rfl, ?_, ?_⟩
  · intro h
    unfold nodebatch_node_name node_obj_name format02
    rw [if_pos h]
    rw [string_append_assoc (vpc_short vpc ++ "-" ++ c) "0" (toString idx)]
  · unfold nodebatch_node_name
    rw [string_append_assoc (vpc_short vpc ++ "-" ++ c) "0" (toString idx)]

/-- C4 (witness): for a single-digit index the batch-expansion name and the
02d-formatted name coincide. -/
theorem C4_node_names_witness :
    nodebatch_node_name "aws1-vpc-demo" "p" 3 "demo"
      = node_obj_name "aws1-vpc-demo" "p" 3 "demo" :=
  (C4_node_names "aws1-vpc-demo" "p" "demo" 3).2.1 (by decide)

end Bwctl

namespace Bwctl

/-- C5 (counterexample): in a two-fabric batch where the first fabric's
`vpc_create` fails (exit code 7), `create_batch_run` calls `sys.exit` at
once: the run ends as `exited 7` with only the first fabric processed,
instead of setting the success flag false and continuing with fabric
`"f2"` as the claim requires. -/
theorem C5_counterexample :
    create_batch_run
      [("f1", ⟨false, true, true, false, 7, false, true, true, true, true⟩),
       ("f2", ⟨false, true, false, true, 0, false, true, true, true, true⟩)]
      = .exited 7 ["f1"] := by decide

/-- Core of the C5 amendment: when no fabric's `vpc_create` fails and no
credentials lookup before node creation fails, the loop never exits: every
fabric is processed and the final flag aggregates the per-fabric results. -/
theorem create_batch_run_go_no_exit (fabrics : List (String × FabricOutcome))
    (flag : Bool) (processed : List String)
    (h : ∀ p ∈ fabrics, (p.2.vpcPresent → p.2.vpcCreateOk) ∧
      (p.2.nodesPresent → p.2.credOk)) :
    create_batch_run_go fabrics flag processed
      = .finished (flag && fabrics.all fun p => fabric_ok p.2)
          (processed ++ fabrics.map fun p => p.1) := by
  induction fabrics generalizing flag processed with
  | nil => simp [create_batch_run_go]
  | cons q rest ih =>
    obtain ⟨name, o⟩ := q
    have hq1 : o.vpcPresent = true → o.vpcCreateOk = true := (h (name, o) (by simp)).1
    have hq2 : o.nodesPresent = true → o.credOk = true := (h (name, o) (by simp)).2
    have hvpc : (o.vpcPresent && !o.vpcCreateOk) = false := by
      cases hv : o.vpcPresent
      · simp
      · simp [hq1 hv]
    have hcred : (o.nodesPresent && !o.credOk) = false := by
      cases hv : o.nodesPresent
      · simp
      · simp [hq2 hv]
    have hrest : ∀ p ∈ rest, (p.2.vpcPresent → p.2.vpcCreateOk) ∧
        (p.2.nodesPresent → p.2.credOk) :=
      fun p hp => h p (List.mem_cons_of_mem _ hp)
    by_cases h1 : (o.fabricInBatch && !o.fabricZoneOk) = true
    · have hfo : fabric_ok o = false := by
        unfold fabric_ok
        rw [h1]
        simp
      rw [create_batch_run_go, if_pos h1, ih false _ hrest]
      simp [hfo]
    · by_cases h4 : (o.nodesPresent && !o.nodeCheckOk) = true
      · have hfo : fabric_ok o = false := by
          unfold fabric_ok
          rw [h4]
          simp
        rw [create_batch_run_go, if_neg h1, if_neg (by simp [hvpc]),
          if_neg (by simp [hcred]), if_pos h4, ih false _ hrest]
        simp [hfo]
      · by_cases h5 : (o.nodesPresent && !o.nodeCreateOk) = true
        · have hfo : fabric_ok o = false := by
            unfold fabric_ok
            rw [h5]
            simp
          rw [create_batch_run_go, if_neg h1, if_neg (by simp [hvpc]),
            if_neg (by simp [hcred]), if_neg h4, if_pos h5, ih false _ hrest]
          simp [hfo]
        · have h1f : (o.fabricInBatch && !o.fabricZoneOk) = false :=
            Bool.eq_false_iff.mpr h1
          have h4f : (o.nodesPresent && !o.nodeCheckOk) = false :=
            Bool.eq_false_iff.mpr h4
          have h5f : (o.nodesPresent && !o.nodeCreateOk) = false :=
            Bool.eq_false_iff.mpr h5
          have hok : fabric_ok o = o.ansibleOk := by
            unfold fabric_ok
            rw [h1f, h4f, h5f]
            simp
          rw [create_batch_run_go, if_neg h1, if_neg (by simp [hvpc]),
            if_neg (by simp [hcred]), if_neg h4, if_neg h5,
            ih (flag && o.ansibleOk) _ hrest]
          simp [hok, Bool.and_assoc]

/-- C5 (amended): an Ansible-zone (configure/start/stop) failure or a node
creation failure for one fabric only clears the overall batch success flag
- every remaining fabric is still processed; but a `vpc_create` failure, or
a credentials failure before node creation, terminates the whole batch run
immediately with the tool's exit code, and a node-creation failure skips
the rest of the failing fabric's own processing. -/
theorem C5_batch_failures_continue (fabrics : List (String × FabricOutcome))
    (h : ∀ p ∈ fabrics, (p.2.vpcPresent → p.2.vpcCreateOk) ∧
      (p.2.nodesPresent → p.2.credOk)) :
    create_batch_run fabrics
      = .finished (fabrics.all fun p => fabric_ok p.2) (fabrics.map fun p => p.1) := by
  have hgo := create_batch_run_go_no_exit fabrics true [] h
  simpa [create_batch_run] using hgo

/-- C5 (witness): a two-fabric batch where the first fabric's Ansible zone
fails: the run still reaches fabric `"f2"` and finishes with the success
flag cleared. -/
theorem C5_batch_failures_continue_witness :
    create_batch_run
      [("f1", ⟨false, true, false, true, 0, true, true, true, true, false⟩),
       ("f2", ⟨false, true, false, true, 0, false, true, true, true, true⟩)]
      = .finished
          ([("f1", (⟨false, true, false, true, 0, true, true, true, true, false⟩ : FabricOutcome)),
            ("f2", ⟨false, true, false, true, 0, false, true, true, true, true⟩)].all
            fun p => fabric_ok p.2)
          (["f1", "f2"] : List String) := by
  have happ := C5_batch_failures_continue
    [("f1", ⟨false, true, false, true, 0, true, true, true, true, false⟩),
     ("f2", ⟨false, true, false, true, 0, false, true, true, true, true⟩)]
    (by decide)
  simpa using happ

end Bwctl

namespace Bwctl

/-- With unique keys, lookup of a member's key returns its value. -/
theorem lookupA_of_mem_nodup {α : Type} (l : List (String × α)) (k : String) (v : α)
    (hnd : (l.map Prod.fst).Nodup) (hm : (k, v) ∈ l) : lookupA l k = some v := by
  induction l with
  | nil => cases hm
  | cons p rest ih =>
    rcases List.mem_cons.mp hm with h | h
    · rw [← h]
      simp [lookupA]
    · have hk : k ∈ rest.map Prod.fst := List.mem_map_of_mem Prod.fst h
      have hnd2 : p.1 ∉ rest.map Prod.fst ∧ (rest.map Prod.fst).Nodup := by
        rw [List.map_cons, List.nodup_cons] at hnd
        exact hnd
      have hne : p.1 ≠ k := fun hEq => hnd2.1 (hEq ▸ hk)
      simp [lookupA, hne, ih hnd2.2 h]

/-- `orch_step` never removes a flag. -/
theorem orch_step_flag_mono (reg : List (String × OrchObj)) (allE : List OrchEntry)
    (flagged : List OrchType) (x : OrchEntry) (t : OrchType) (ht : t ∈ flagged) :
    t ∈ (orch_step reg allE flagged x).2 := by
  unfold orch_step
  by_cases hex : orch_exists_success_other reg x = true
  · simpa [hex] using ht
  · by_cases hfl : x.tp ∈ flagged
    · simpa [hex, hfl] using ht
    · by_cases hdup : orch_dup_in_batch allE x = true
      · simp [hex, hfl, hdup]
        exact Or.inr ht
      · simpa [hex, hfl, hdup] using ht

/-- Any flag present after `orch_step` is the processed entry's type or was
present before. -/
theorem orch_step_flag_cases (reg : List (String × OrchObj)) (allE : List OrchEntry)
    (flagged : List OrchType) (x : OrchEntry) (t : OrchType)
    (ht : t ∈ (orch_step reg allE flagged x).2) : t = x.tp ∨ t ∈ flagged := by
  unfold orch_step at ht
  by_cases hex : orch_exists_success_other reg x = true
  · simp [hex] at ht
    exact Or.inr ht
  · by_cases hfl : x.tp ∈ flagged
    · simp [hex, hfl] at ht
      exact Or.inr ht
    · by_cases hdup : orch_dup_in_batch allE x = true
      · simp [hex, hfl, hdup] at ht
        exact ht
      · simp [hex, hfl, hdup] at ht
        exact Or.inr ht

/-- An entry whose type is already flagged is not kept by `orch_step`. -/
theorem orch_step_not_keep_of_flag (reg : List (String × OrchObj)) (allE : List OrchEntry)
    (flagged : List OrchType) (e : OrchEntry) (h : e.tp ∈ flagged) :
    (orch_step reg allE flagged e).1 = false := by
  unfold orch_step
  by_cases hex : orch_exists_success_other reg e = true
  · simp [hex]
  · simp [hex, h]

/-- An entry whose type is already flagged never appears in the retained
list, whatever the remaining entries. -/
theorem orch_flag_drop (reg : List (String × OrchObj)) (allE : List OrchEntry)
    (es : List OrchEntry) (e : OrchEntry) :
    ∀ flagged, e.tp ∈ flagged → e ∉ orch_process_aux reg allE es flagged := by
  induction es with
  | nil =>
    intro flagged _ hmem
    simp [orch_process_aux] at hmem
  | cons hd rest ih =>
    intro flagged hfl hmem
    by_cases hde : hd = e
    · subst hde
      have hk : (orch_step reg allE flagged hd).1 = false :=
        orch_step_not_keep_of_flag reg allE flagged hd hfl
      rw [orch_process_aux] at hmem
      rw [hk] at hmem
      simp at hmem
      exact ih _ (orch_step_flag_mono reg allE flagged hd _ hfl) hmem
    · rw [orch_process_aux] at hmem
      have hmono := orch_step_flag_mono reg allE flagged hd e.tp hfl
      by_cases hk : (orch_step reg allE flagged hd).1 = true
      · rw [hk] at hmem
        simp at hmem
        rcases hmem with h | h
        · exact hde h.symm
        · exact ih _ hmono h
      · rw [Bool.eq_false_iff.mpr hk] at hmem
        simp at hmem
        exact ih _ hmono hmem

/-- When an orchestrator of the entry's type already exists with status
`SUCCESS` anywhere in the (uniquely keyed) registry, the entry is not kept
by `orch_step`: either the existing one has a different name (dropped by
the existing-orchestrator check) or the same name (dropped by the
node-exists check, since its status is not `failed`). -/
theorem orch_step_not_keep_of_exists (reg : List (String × OrchObj))
    (allE : List OrchEntry) (flagged : List OrchType) (e : OrchEntry)
    (hnd : (reg.map Prod.fst).Nodup)
    (hw : ∃ p ∈ reg, p.2.tp = e.tp ∧ p.2.status = ObjectStatus.success) :
    (orch_step reg allE flagged e).1 = false := by
  obtain ⟨p, hpmem, hptp, hpst⟩ := hw
  unfold orch_step
  by_cases hex : orch_exists_success_other reg e = true
  · simp [hex]
  · by_cases hfl : e.tp ∈ flagged
    · simp [hex, hfl]
    · have hpname : p.1 = e.name := by
        by_contra hpn
        apply hex
        unfold orch_exists_success_other
        rw [List.any_eq_true]
        refine ⟨p, hpmem, ?_⟩
        simp [hptp, hpst, hpn]
      have hlook : lookupA reg e.name = some p.2 := by
        rw [← hpname]
        exact lookupA_of_mem_nodup reg p.1 p.2 hnd (by simpa using hpmem)
      have hkeep : orch_node_exists_keep reg e = false := by
        unfold orch_node_exists_keep
        rw [hlook]
        simp [hpst]
      simp [hex, hfl, hkeep]

/-- An entry whose type already exists with status `SUCCESS` in the
registry never appears in the retained list. -/
theorem orch_drop_of_exists_success (reg : List (String × OrchObj))
    (allE : List OrchEntry) (e : OrchEntry)
    (hnd : (reg.map Prod.fst).Nodup)
    (hw : ∃ p ∈ reg, p.2.tp = e.tp ∧ p.2.status = ObjectStatus.success) :
    ∀ es flagged, e ∉ orch_process_aux reg allE es flagged := by
  intro es
  induction es with
  | nil =>
    intro flagged hmem
    simp [orch_process_aux] at hmem
  | cons hd rest ih =>
    intro flagged hmem
    rw [orch_process_aux] at hmem
    by_cases hde : hd = e
    · subst hde
      rw [orch_step_not_keep_of_exists reg allE flagged hd hnd hw] at hmem
      simp at hmem
      exact ih _ hmem
    · by_cases hk : (orch_step reg allE flagged hd).1 = true
      · rw [hk] at hmem
        simp at hmem
        rcases hmem with h | h
        · exact hde h.symm
        · exact ih _ h
      · rw [Bool.eq_false_iff.mpr hk] at hmem
        simp at hmem
        exact ih _ hmem

/-- Core duplicate-drop argument: when the iteration starts at an earlier
entry `e'` of the same type and a different name, the later entry `e` is
never retained, for any incoming flag set. -/
theorem orch_dup_dropped_aux (reg : List (String × OrchObj)) (allE : List OrchEntry)
    (hnd : (reg.map Prod.fst).Nodup) (e' e : OrchEntry) (l2 l3 : List OrchEntry)
    (htp : e.tp = e'.tp) (hname : e.name ≠ e'.name) (hin : e ∈ allE) :
    ∀ flagged, e ∉ orch_process_aux reg allE (e' :: (l2 ++ e :: l3)) flagged := by
  intro flagged hmem
  by_cases hex : orch_exists_success_other reg e' = true
  · have hw : ∃ p ∈ reg, p.2.tp = e.tp ∧ p.2.status = ObjectStatus.success := by
      unfold orch_exists_success_other at hex
      rw [List.any_eq_true] at hex
      obtain ⟨p, hpmem, hp⟩ := hex
      simp only [Bool.and_eq_true, beq_iff_eq, bne_iff_ne] at hp
      exact ⟨p, hpmem, htp ▸ hp.1.1, hp.1.2⟩
    exact orch_drop_of_exists_success reg allE e hnd hw _ _ hmem
  · by_cases hfl : e'.tp ∈ flagged
    · exact orch_flag_drop reg allE _ e flagged (htp ▸ hfl) hmem
    · have hdup : orch_dup_in_batch allE e' = true := by
        unfold orch_dup_in_batch
        rw [List.any_eq_true]
        refine ⟨e, hin, ?_⟩
        simp [htp, hname]
      have hs2 : (orch_step reg allE flagged e').2 = e'.tp :: flagged := by
        unfold orch_step
        simp [hex, hfl, hdup]
      have hflag2 : e.tp ∈ (orch_step reg allE flagged e').2 := by
        rw [hs2, htp]
        exact List.mem_cons_self _ _
      rw [orch_process_aux] at hmem
      by_cases hk : (orch_step reg allE flagged e').1 = true
      · rw [hk] at hmem
        simp at hmem
        rcases hmem with h | h
        · exact hname (by rw [h])
        · exact orch_flag_drop reg allE _ e _ hflag2 h
      · rw [Bool.eq_false_iff.mpr hk] at hmem
        simp at hmem
        exact orch_flag_drop reg allE _ e _ hflag2 hmem

/-- Walking an initial segment that does not contain `e`: if `e` is kept in
no continuation, it is not kept overall. -/
theorem orch_walk_not_mem (reg : List (String × OrchObj)) (allE : List OrchEntry)
    (e : OrchEntry) (l1 tail : List OrchEntry) (he : e ∉ l1)
    (h : ∀ fl, e ∉ orch_process_aux reg allE tail fl) :
    ∀ flagged, e ∉ orch_process_aux reg allE (l1 ++ tail) flagged := by
  induction l1 with
  | nil =>
    intro flagged
    simpa using h flagged
  | cons hd t1 ih =>
    intro flagged hmem
    have hde : hd ≠ e := fun hEq => he (hEq ▸ List.mem_cons_self hd t1)
    have het1 : e ∉ t1 := fun hmem1 => he (List.mem_cons_of_mem hd hmem1)
    rw [List.cons_append, orch_process_aux] at hmem
    by_cases hk : (orch_step reg allE flagged hd).1 = true
    · rw [hk] at hmem
      simp at hmem
      rcases hmem with h1 | h1
      · exact hde h1.symm
      · exact ih het1 _ h1
    · rw [Bool.eq_false_iff.mpr hk] at hmem
      simp at hmem
      exact ih het1 _ hmem

end Bwctl

namespace Bwctl

/-- Positive retention: an entry that passes the existing-orchestrator,
parent and node-exists checks is kept, provided no earlier entry shares its
type and its type is not yet flagged. -/
theorem orch_walk_keep (reg : List (String × OrchObj)) (allE : List OrchEntry)
    (e : OrchEntry) (l3 : List OrchEntry)
    (hex : orch_exists_success_other reg e = false)
    (hpar : e.parentsOk = true)
    (hkeep : orch_node_exists_keep reg e = true) :
    ∀ (l1 : List OrchEntry) (flagged : List OrchType),
      (∀ x ∈ l1, x.tp ≠ e.tp) → e.tp ∉ flagged →
      e ∈ orch_process_aux reg allE (l1 ++ e :: l3) flagged := by
  intro l1
  induction l1 with
  | nil =>
    intro flagged _ hfl
    have hk : (orch_step reg allE flagged e).1 = true := by
      unfold orch_step
      simp [hex, hfl, hpar, hkeep]
    rw [List.nil_append, orch_process_aux, hk]
    simp
  | cons hd t1 ih =>
    intro flagged htps hfl
    have hhd : hd.tp ≠ e.tp := htps hd (List.mem_cons_self hd t1)
    have ht1 : ∀ x ∈ t1, x.tp ≠ e.tp := fun x hx => htps x (List.mem_cons_of_mem hd hx)
    have hfl2 : e.tp ∉ (orch_step reg allE flagged hd).2 := by
      intro hmem
      rcases orch_step_flag_cases reg allE flagged hd e.tp hmem with h | h
      · exact hhd h.symm
      · exact hfl h
    rw [List.cons_append, orch_process_aux]
    by_cases hk : (orch_step reg allE flagged hd).1 = true
    · rw [hk]
      simp only [if_true]
      exact List.mem_cons_of_mem _ (ih _ ht1 hfl2)
    · rw [Bool.eq_false_iff.mpr hk]
      simp only [Bool.false_eq_true, if_false]
      exact ih _ ht1 hfl2

/-- C6: in the orchestrator branch of the batch node loop, with uniquely
keyed registry and batch entry names: (1) of two or more orchestrator
entries of the same type in one batch, every entry after the first is
dropped and produces no create action; (2) an entry whose orchestrator
type already exists in the fabric with status `success` is dropped
entirely; (3) the first entry of its type is retained whenever nothing
else drops it: no same-type `success` orchestrator exists, its parent
fabric/VPC checks pass, and no same-name node blocks re-creation. -/
theorem C6_orchestrator_dedup (reg : List (String × OrchObj)) (entries : List OrchEntry)
    (hreg : (reg.map Prod.fst).Nodup)
    (hnames : (entries.map OrchEntry.name).Nodup) :
    (∀ (l1 : List OrchEntry) (e' : OrchEntry) (l2 : List OrchEntry) (e : OrchEntry)
      (l3 : List OrchEntry), entries = l1 ++ e' :: (l2 ++ e :: l3) → e.tp = e'.tp →
      e ∉ orch_process reg entries) ∧
    (∀ e ∈ entries, (∃ p ∈ reg, p.2.tp = e.tp ∧ p.2.status = ObjectStatus.success) →
      e ∉ orch_process reg entries) ∧
    (∀ (l1 : List OrchEntry) (e : OrchEntry) (l3 : List OrchEntry),
      entries = l1 ++ e :: l3 → (∀ x ∈ l1, x.tp ≠ e.tp) →
      orch_exists_success_other reg e = false → e.parentsOk = true →
      orch_node_exists_keep reg e = true → e ∈ orch_process reg entries) := by
  refine ⟨?_, ?_, ?_⟩
  · intro l1 e' l2 e l3 hsplit htp
    subst hsplit
    have hmapsplit :
        (l1 ++ e' :: (l2 ++ e :: l3)).map OrchEntry.name
          = l1.map OrchEntry.name ++ e'.name ::
              (l2.map OrchEntry.name ++ e.name :: l3.map OrchEntry.name) := by
      simp
    rw [hmapsplit] at hnames
    rcases List.nodup_append.mp hnames with ⟨hnd1, hnd2, hdisj⟩
    rcases List.nodup_cons.mp hnd2 with ⟨hnotin, hnd3⟩
    have hname : e.name ≠ e'.name := by
      intro hEq
      apply hnotin
      rw [← hEq]
      exact List.mem_append_right _ (List.mem_cons_self _ _)
    have hin : e ∈ l1 ++ e' :: (l2 ++ e :: l3) :=
      List.mem_append_right _
        (List.mem_cons_of_mem _ (List.mem_append_right _ (List.mem_cons_self _ _)))
    have hnotl1 : e ∉ l1 := by
      intro hmem1
      exact hdisj (List.mem_map_of_mem _ hmem1)
        (List.mem_cons_of_mem _
          (List.mem_append_right _ (List.mem_cons_self _ _)))
    exact orch_walk_not_mem reg _ e l1 _ hnotl1
      (orch_dup_dropped_aux reg _ hreg e' e l2 l3 htp hname hin) []
  · intro e _ hw
    exact orch_drop_of_exists_success reg entries e hreg hw entries []
  · intro l1 e l3 hsplit htps hex hpar hkeep
    subst hsplit
    exact orch_walk_keep reg _ e l3 hex hpar hkeep l1 [] htps (List.not_mem_nil _)

/-- C6 (witness): in a batch declaring two controllers for one fabric with
an empty registry, the second entry is not retained. -/
theorem C6_orchestrator_dedup_witness :
    (⟨"c2", OrchType.controller, true⟩ : OrchEntry) ∉
      orch_process []
        [⟨"c1", OrchType.controller, true⟩, ⟨"c2", OrchType.controller, true⟩] :=
  (C6_orchestrator_dedup []
      [⟨"c1", OrchType.controller, true⟩, ⟨"c2", OrchType.controller, true⟩]
      (by decide) (by decide)).1
    [] ⟨"c1", OrchType.controller, true⟩ [] ⟨"c2", OrchType.controller, true⟩ []
    (by decide) (by decide)

end Bwctl

namespace Bwctl

/-- C7: when the named Processor is the only Processor in its VPC and at
least one Workload exists in that VPC, `delete_processor` is rejected as a
validation error: the process exits before any external call (credentials,
Terraform plan or apply) and the persisted state is returned unchanged. -/
theorem C7_last_processor_guard (st : FabricNodes) (processorName : String)
    (dryRun : Bool) (ext : DeleteExtOracle) (objVpc : String)
    (hfound : lookupA st.processors (normalise_string processorName) = some objVpc)
    (honly : (st.processors.filter fun p => objVpc == p.2).length < 2)
    (hwl : (st.workloads.filter fun p => objVpc == p.2) ≠ []) :
    delete_processor true st processorName dryRun ext
      = (.validationExit, st, []) := by
  have hw : ((st.workloads.filter fun p => objVpc == p.2).map Prod.fst).isEmpty = false := by
    rw [List.isEmpty_eq_false]
    simpa using hwl
  unfold delete_processor
  simp [hfound, hw]
  intro hge
  exact absurd honly (by omega)

/-- C7 (witness): the guard fires on the concrete one-processor VPC with a
workload. -/
theorem C7_last_processor_guard_witness :
    delete_processor true ⟨[("p1", "v1")], [("w1", "v1")]⟩ "p1" false ⟨true, true, true, 0⟩
      = (.validationExit, ⟨[("p1", "v1")], [("w1", "v1")]⟩, []) :=
  C7_last_processor_guard ⟨[("p1", "v1")], [("w1", "v1")]⟩ "p1" false
    ⟨true, true, true, 0⟩ "v1" (by decide) (by decide) (by decide)

/-- A key absent from the first list makes lookup on the concatenation fall
through to the second list. -/
theorem lookupA_append_left_none {α : Type} (l1 l2 : List (String × α)) (k : String)
    (h : lookupA l1 k = none) : lookupA (l1 ++ l2) k = lookupA l2 k := by
  induction l1 with
  | nil => rfl
  | cons p rest ih =>
    by_cases hp : p.1 = k
    · rw [lookupA, if_pos hp] at h
      cases h
    · rw [List.cons_append, lookupA, if_neg hp]
      rw [lookupA, if_neg hp] at h
      exact ih h

/-- C8: node-batch resolution is idempotent: running the generation step a
second time for the same batch name finds the recorded NodeBatch entry,
resumes it, and changes nothing - in particular it adds zero new node
entries to the batch's node map. -/
theorem C8_nodebatch_gen_idempotent (st : GenState) (spec : NodeBatchSpec) :
    create_nodebatch_gen (create_nodebatch_gen st spec) spec
      = create_nodebatch_gen st spec := by
  have hfix : ∀ s : GenState, (lookupA s.batches spec.name).isSome →
      create_nodebatch_gen s spec = s := by
    intro s hs
    unfold create_nodebatch_gen
    rw [if_pos hs]
  by_cases h : (lookupA st.batches spec.name).isSome
  · rw [hfix st h]
    exact hfix st h
  · have hnone : lookupA st.batches spec.name = none :=
      Option.not_isSome_iff_eq_none.mp h
    have h2 : (lookupA (create_nodebatch_gen st spec).batches spec.name).isSome := by
      unfold create_nodebatch_gen
      rw [if_neg h]
      simp only []
      rw [lookupA_append_left_none _ _ _ hnone]
      simp [lookupA]
    exact hfix _ h2

/-- C9 (counterexample): batch orchestrator creation copies the declared
`spec.role` verbatim, so a batch declaring a `controller` and a `telemetry`
orchestrator both with role `manager` produces a reachable state with two
managers in one fabric, violating the claimed invariant. -/
theorem C9_counterexample :
    manager_count
        (add_batch_orchestrator
          (add_batch_orchestrator [] "aws1-c01-f" "controller" "manager")
          "aws1-t01-f" "telemetry" "manager") = 2 ∧
    ¬ (manager_count
        (add_batch_orchestrator
          (add_batch_orchestrator [] "aws1-c01-f" "controller" "manager")
          "aws1-t01-f" "telemetry" "manager") ≤ 1) := by
  exact ⟨by decide, by decide⟩

/-- C9 (amended): the automatic swarm-manager assignment of
`orchestrator_configure` preserves "at most one manager per fabric"
provided the configured list contains at most one controller: when a
manager already exists roles are unchanged, and when none exists exactly
the listed controllers become managers (others become workers).  Batch
creation, by contrast, copies declared roles verbatim and can exceed one
manager. -/
theorem C9_swarm_manager_amended (orchs : List (String × OrchNode))
    (configList : List String)
    (h1 : manager_count orchs ≤ 1)
    (h2 : (orchs.countP fun p =>
      decide (p.1 ∈ configList) && (p.2.tp == "controller")) ≤ 1) :
    manager_count (assign_swarm_roles orchs configList) ≤ 1 := by
  unfold assign_swarm_roles
  by_cases hm : orchs.any (fun p => role_is_manager p.2.role) = true
  · rw [if_pos hm]
    exact h1
  · rw [if_neg hm]
    have hall : ∀ p ∈ orchs, role_is_manager p.2.role = false := by
      intro p hp
      have := List.any_eq_false.mp (Bool.eq_false_iff.mpr hm) p hp
      exact Bool.eq_false_iff.mpr this
    unfold manager_count
    rw [List.countP_map]
    have hcongr : ∀ x ∈ orchs,
        (fun p => role_is_manager p.2.role) ((fun p =>
          if p.1 ∈ configList then
            (p.1, { p.2 with
              role := some (if p.2.tp == "controller" then "manager" else "worker") })
          else p) x) = true ↔
        (fun p => decide (p.1 ∈ configList) && (p.2.tp == "controller")) x = true := by
      intro x hx
      have hman : role_is_manager (some "manager") = true := by decide
      have hwork : role_is_manager (some "worker") = false := by decide
      by_cases hmem : x.1 ∈ configList
      · by_cases htp : (x.2.tp == "controller") = true
        · simp [hmem, htp, hman]
        · have htpf := Bool.eq_false_iff.mpr htp
          simp [hmem, htpf, hwork]
      · simp [hmem, hall x hx]
    calc List.countP
          ((fun p => role_is_manager p.2.role) ∘ (fun p =>
            if p.1 ∈ configList then
              (p.1, { p.2 with
                role := some (if p.2.tp == "controller" then "manager" else "worker") })
            else p)) orchs
        = orchs.countP (fun p =>
            decide (p.1 ∈ configList) && (p.2.tp == "controller")) :=
          List.countP_congr hcongr
      _ ≤ 1 := h2

/-- C9 (witness): configuring one controller and one telemetry node in a
manager-free fabric yields at most one manager. -/
theorem C9_swarm_manager_amended_witness :
    manager_count (assign_swarm_roles
      [("c1", ⟨"controller", none⟩), ("t1", ⟨"telemetry", none⟩)]
      ["c1", "t1"]) ≤ 1 :=
  C9_swarm_manager_amended
    [("c1", ⟨"controller", none⟩), ("t1", ⟨"telemetry", none⟩)]
    ["c1", "t1"] (by decide) (by decide)

/-- C10: `get_current_fabric` returns the configured current-fabric name
exactly when that fabric exists in the state and is either
`(configured, success)` or in state `deleting`; in every other case -
including an existing fabric still `created` or with a failed last attempt
- it returns `none`, and it never returns any other name. -/
theorem C10_get_current_fabric_iff (fabrics : List (String × FabCond)) (name : String) :
    (get_current_fabric fabrics name = some name ↔
      ∃ f, lookupA fabrics name = some f ∧
        ((f.st = some ObjectState.configured ∧ f.status = some ObjectStatus.success) ∨
          f.st = some ObjectState.deleting)) ∧
    (get_current_fabric fabrics name = some name ∨
      get_current_fabric fabrics name = none) := by
  cases hx : lookupA fabrics name with
  | none =>
    have hred : get_current_fabric fabrics name = none := by
      unfold get_current_fabric
      rw [hx]
    simp [hred, hx]
  | some f =>
    have hred : get_current_fabric fabrics name
        = (if ((f.st == some ObjectState.configured &&
            f.status == some ObjectStatus.success) ||
            f.st == some ObjectState.deleting) = true then some name else none) := by
      unfold get_current_fabric
      rw [hx]
    rw [hred]
    by_cases hc : ((f.st == some ObjectState.configured &&
        f.status == some ObjectStatus.success) ||
        f.st == some ObjectState.deleting) = true
    · rw [if_pos hc]
      have hcp : (f.st = some ObjectState.configured ∧
          f.status = some ObjectStatus.success) ∨ f.st = some ObjectState.deleting := by
        simpa [Bool.or_eq_true, Bool.and_eq_true, beq_iff_eq] using hc
      constructor
      · constructor
        · intro _
          exact ⟨f, rfl, hcp⟩
        · intro _
          rfl
      · left
        rfl
    · rw [if_neg hc]
      have hcp : ¬ ((f.st = some ObjectState.configured ∧
          f.status = some ObjectStatus.success) ∨ f.st = some ObjectState.deleting) := by
        intro hk
        apply hc
        rcases hk with ⟨ha, hb⟩ | hd
        · simp [ha, hb]
        · simp [hd]
      constructor
      · constructor
        · intro hfalse
          cases hfalse
        · intro hk
          obtain ⟨f2, hf2, hcond2⟩ := hk
          cases hf2
          exact absurd hcond2 hcp
      · right
        rfl

end Bwctl
